import Mathlib

/-
Shallow embedding of the prepared-statement memoization cache of the
lumos repository (package zimemo, with its zimemofx Provider), together
with the semantics of the pieces of hashicorp golang-lru v2 that it uses
(NewWithEvict, Get, Add, Purge).

Modelling conventions:
  * Statement handles are natural-number ids handed out by a fresh-id
    allocator standing for the database client; db.PreparexContext and
    db.PrepareNamedContext return the next id on success.  A named
    statement (sqlx.NamedStmt) wraps an underlying positional statement
    (its Stmt field); in the source PrepareNamed stores namedStmt.Stmt in
    the positional slot, so in the model the positional slot and the named
    slot of such an entry carry the same underlying id, and closing the
    named wrapper closes that same underlying id (sqlx: NamedStmt.Close
    is n.Stmt.Close).  Calling Close on a nil NamedStmt dereferences a nil
    pointer and panics, which the model makes explicit.
  * Close events are recorded in Memo.closes in order, one entry per
    Close call on an underlying statement id; whether a Close call fails
    is decided by an environment parameter closeFails.  Failures logged
    by the eviction callback (zilog warnings) are recorded in Memo.logs.
  * Whether a db preparation call fails is an explicit per-call argument
    (some e = fail with error code e, none = succeed).
  * The md5 fingerprint is abstracted as a parameter hash; claims about
    forced collisions instantiate it with a constant function and claims
    needing distinct keys instantiate it with the identity, mirroring the
    test-double treatment in the specification.
  * golang-lru v2 stores entries in a map plus a recency list; the model
    is the recency list itself (most recent first).  Cache.Add on an
    already-present key moves it to the front and updates the value in
    place without delivering the user eviction callback, so a replaced
    value's handles are simply dropped from the index (leaked, not
    closed); the callback is delivered only on a capacity eviction
    (removeOldest on the tail) and by Purge, which invokes it for every
    entry (the model iterates in list order; the Go map order is
    unspecified, and every property proved about Purge is
    order-independent).
  * strings.EqualFold is modelled as equality of the ASCII-case-folded
    character sequences (EqualFold performs Unicode simple folding; the
    two coincide on the ASCII query texts exercised here).
-/

namespace Zimemo

/-- Mirror of the statement wrapper struct: cache key, positional handle
(nil = none), named handle (nil = none), and the source query text. -/
structure Statement where
  key : String
  stmt : Option Nat
  namedStmt : Option Nat
  query : String
deriving Repr, DecidableEq

/-- The observable state of one ziMemoizationImpl together with its
environment: the LRU recency list (most recent first), the LRU capacity,
the new-relic creation counter, the db fresh-handle allocator, the Close
events issued so far, and the close failures logged by eviction. -/
structure Memo where
  storage : List (String × Statement)
  cap : Nat
  counter : Nat
  nextId : Nat
  closes : List Nat
  logs : List Nat
deriving Repr, DecidableEq

/-- Errors surfaced by the cache: the sentinel errCacheMiss, a close
failure propagated from getCachedStmt, or a db preparation error code. -/
inductive GoErr where
  | cacheMiss : GoErr
  | closeErr : Nat → GoErr
  | dbErr : Nat → GoErr
deriving Repr, DecidableEq

/-- Result of getCachedStmt: a runtime panic (nil NamedStmt dereference)
or a returned statement with an optional error (none = cache hit). -/
inductive GetOut where
  | panicked : GetOut
  | ret : Statement → Option GoErr → GetOut
deriving Repr, DecidableEq

/-- Result of Prepare / PrepareNamed: panic, success with the returned
statement, or an error together with the statement value the Go code
returns alongside it. -/
inductive PrepOut where
  | panicked : PrepOut
  | ok : Statement → PrepOut
  | err : GoErr → Statement → PrepOut
deriving Repr, DecidableEq

/-- ASCII simple case folding of one character code: the uppercase
letters A..Z map to their lowercase counterparts. -/
def foldCode (n : Nat) : Nat :=
  if 65 ≤ n ∧ n ≤ 90 then n + 32 else n

/-- strings.EqualFold, modelled as equality of the case-folded character
sequences (ASCII folding; every query text exercised here is ASCII). -/
def eqFold (a b : String) : Bool :=
  a.data.map (fun c => foldCode c.toNat) == b.data.map (fun c => foldCode c.toNat)

/-- Close one underlying statement id and log the failure if the close
fails: the body of each branch of the eviction callback. -/
def closeLogged (closeFails : Nat → Bool) (i : Nat) (st : Memo) : Memo :=
  let sx := { st with closes := st.closes ++ [i] }
  if closeFails i then { sx with logs := sx.logs ++ [i] } else sx

/-- Close an optional handle (a possibly-nil statement pointer), logging
a failure; a nil pointer is skipped. -/
def closeOptLogged (closeFails : Nat → Bool) (o : Option Nat) (st : Memo) : Memo :=
  match o with
  | none => st
  | some i => closeLogged closeFails i st

/-- The eviction callback handed to lru.NewWithEvict: close the
positional handle if present, then the named handle if present, logging
(not raising) each close failure. -/
def stmtEvictionStrategy (closeFails : Nat → Bool) (v : Statement) (st : Memo) : Memo :=
  closeOptLogged closeFails v.namedStmt (closeOptLogged closeFails v.stmt st)

/-- golang-lru v2 Get: on a hit, move the entry to the front of the
recency list and return its value; on a miss, leave the state unchanged. -/
def lruGet (st : Memo) (key : String) : Option Statement × Memo :=
  match st.storage.find? (fun p => p.1 == key) with
  | none => (none, st)
  | some kv =>
      (some kv.2,
        { st with storage := (kv.1, kv.2) :: st.storage.eraseP (fun p => p.1 == key) })

/-- golang-lru v2 Add: if the key is present, move it to the front and
update the value in place — the user eviction callback is NOT delivered
for the overwritten value, whose handles are thereby dropped unclosed;
otherwise push the new entry at the front and, if the size now exceeds
the capacity, remove the oldest entry, invoking the callback on it. -/
def lruAdd (closeFails : Nat → Bool) (st : Memo) (key : String) (v : Statement) : Memo :=
  match st.storage.find? (fun p => p.1 == key) with
  | some _ =>
      { st with storage := (key, v) :: st.storage.eraseP (fun p => p.1 == key) }
  | none =>
      let st1 := { st with storage := (key, v) :: st.storage }
      if st.cap < st1.storage.length then
        match st1.storage.getLast? with
        | none => st1
        | some kv =>
            let st2 := stmtEvictionStrategy closeFails kv.2 st1
            { st2 with storage := st2.storage.dropLast }
      else st1

/-- golang-lru v2 Purge: invoke the eviction callback on every stored
entry, then clear the cache. -/
def lruPurge (closeFails : Nat → Bool) (st : Memo) : Memo :=
  let st1 := st.storage.foldl (fun acc p => stmtEvictionStrategy closeFails p.2 acc) st
  { st1 with storage := [] }

/-- zimemo.New: a fresh cache of the given capacity (the Go code ignores
the error from lru.NewWithEvict; all claims use a positive capacity). -/
def New (cap : Nat) : Memo :=
  { storage := [], cap := cap, counter := 0, nextId := 0, closes := [], logs := [] }

/-- getCachedStmt: hash the query, look it up; on a miss return the
zero statement carrying the key together with errCacheMiss; on a stored
query that is EqualFold-equal, hit; otherwise (fingerprint collision)
call Close on the existing entry's NamedStmt — a nil-pointer panic when
that handle is absent — propagating a close failure, else errCacheMiss.
The colliding entry is not removed from the cache here. -/
def getCachedStmt (hash : String → String) (closeFails : Nat → Bool)
    (q : String) (st : Memo) : GetOut × Memo :=
  let key := hash q
  match lruGet st key with
  | (none, st1) =>
      (GetOut.ret { key := key, stmt := none, namedStmt := none, query := "" }
        (some GoErr.cacheMiss), st1)
  | (some existing, st1) =>
      if eqFold existing.query q then
        (GetOut.ret existing none, st1)
      else
        match existing.namedStmt with
        | none => (GetOut.panicked, st1)
        | some i =>
            let st2 := { st1 with closes := st1.closes ++ [i] }
            if closeFails i then
              (GetOut.ret existing (some (GoErr.closeErr i)), st2)
            else
              (GetOut.ret { key := key, stmt := none, namedStmt := none, query := "" }
                (some GoErr.cacheMiss), st2)

/-- The creation half of Prepare: ask the db client for a positional
statement (per-call outcome dbFail); on failure return the error with
the statement value getCachedStmt produced; on success build the new
entry (no named handle), Add it under the cached key, and record the
creation metric. -/
def prepareCreate (closeFails : Nat → Bool) (q : String) (dbFail : Option Nat)
    (cached : Statement) (st : Memo) : PrepOut × Memo :=
  match dbFail with
  | some e => (PrepOut.err (GoErr.dbErr e) cached, st)
  | none =>
      let i := st.nextId
      let news : Statement := { key := cached.key, stmt := some i, namedStmt := none, query := q }
      let st1 := lruAdd closeFails { st with nextId := i + 1 } cached.key news
      (PrepOut.ok news, { st1 with counter := st1.counter + 1 })

/-- The creation half of PrepareNamed: the db client returns a named
statement wrapping a fresh underlying handle; the new entry stores the
named wrapper and, in the positional slot, its underlying statement
(namedStmt.Stmt) — the same underlying id. -/
def prepareNamedCreate (closeFails : Nat → Bool) (q : String) (dbFail : Option Nat)
    (cached : Statement) (st : Memo) : PrepOut × Memo :=
  match dbFail with
  | some e => (PrepOut.err (GoErr.dbErr e) cached, st)
  | none =>
      let i := st.nextId
      let news : Statement := { key := cached.key, stmt := some i, namedStmt := some i, query := q }
      let st1 := lruAdd closeFails { st with nextId := i + 1 } cached.key news
      (PrepOut.ok news, { st1 with counter := st1.counter + 1 })

/-- ziMemoizationImpl.Prepare: return the cached statement on a hit
(whatever variants it holds); otherwise run the creation half. -/
def Prepare (hash : String → String) (closeFails : Nat → Bool)
    (q : String) (dbFail : Option Nat) (st : Memo) : PrepOut × Memo :=
  match getCachedStmt hash closeFails q st with
  | (GetOut.panicked, st1) => (PrepOut.panicked, st1)
  | (GetOut.ret cached none, st1) => (PrepOut.ok cached, st1)
  | (GetOut.ret cached (some _), st1) => prepareCreate closeFails q dbFail cached st1

/-- ziMemoizationImpl.PrepareNamed: return the cached statement on a hit
(whatever variants it holds); otherwise run the named creation half. -/
def PrepareNamed (hash : String → String) (closeFails : Nat → Bool)
    (q : String) (dbFail : Option Nat) (st : Memo) : PrepOut × Memo :=
  match getCachedStmt hash closeFails q st with
  | (GetOut.panicked, st1) => (PrepOut.panicked, st1)
  | (GetOut.ret cached none, st1) => (PrepOut.ok cached, st1)
  | (GetOut.ret cached (some _), st1) => prepareNamedCreate closeFails q dbFail cached st1

/-- ziMemoizationImpl.Purge: delegate to the LRU Purge. -/
def Purge (closeFails : Nat → Bool) (st : Memo) : Memo :=
  lruPurge closeFails st

/-- zimemofx Provider: an absent optional Size arrives as zero and is
replaced by the documented default 256 before calling zimemo.New. -/
def providerNew (size : Nat) : Memo :=
  New (if size = 0 then 256 else size)

/-- A run of the public API, for stating state invariants. -/
inductive Op where
  | prep : String → Option Nat → Op
  | prepNamed : String → Option Nat → Op
  | purge : Op
deriving Repr, DecidableEq

/-- Execute one public operation, keeping only the state. -/
def runOp (hash : String → String) (closeFails : Nat → Bool) (st : Memo) : Op → Memo
  | Op.prep q d => (Prepare hash closeFails q d st).2
  | Op.prepNamed q d => (PrepareNamed hash closeFails q d st).2
  | Op.purge => Purge closeFails st

/-- Execute a sequence of public operations. -/
def run (hash : String → String) (closeFails : Nat → Bool) (ops : List Op) (st : Memo) : Memo :=
  ops.foldl (runOp hash closeFails) st

/-- The identity fingerprint: a collision-free test double. -/
def idHash : String → String := fun s => s

/-- A constant fingerprint: the forced-collision test double. -/
def collHash : String → String := fun _ => "K"

/-- Environment in which every Close call succeeds. -/
def noFail : Nat → Bool := fun _ => false

/-- Environment in which every Close call fails. -/
def allFail : Nat → Bool := fun _ => true

/-- All underlying statement ids held by entries of the cache, in
storage order, positional slot before named slot. -/
def heldIds (st : Memo) : List Nat :=
  st.storage.foldr (fun p acc => p.2.stmt.toList ++ p.2.namedStmt.toList ++ acc) []

/-- One legal interleaving of two goroutines calling Prepare on the same
query: the LRU mutex is held only inside Get and Add, and the db call
runs outside it, so caller two can complete its lookup (a miss), then
caller one can run its entire Prepare, and caller two then resumes with
its stale miss result and runs the creation half.  Returns caller one's
result, caller two's result, and the final state. -/
def racePrepare2 (hash : String → String) (closeFails : Nat → Bool)
    (q : String) (st : Memo) : PrepOut × PrepOut × Memo :=
  match getCachedStmt hash closeFails q st with
  | (GetOut.panicked, st1) => (PrepOut.panicked, PrepOut.panicked, st1)
  | (GetOut.ret c2 none, st1) =>
      let r1 := Prepare hash closeFails q none st1
      (r1.1, PrepOut.ok c2, r1.2)
  | (GetOut.ret c2 (some _), st1) =>
      let r1 := Prepare hash closeFails q none st1
      let r2 := prepareCreate closeFails q none c2 r1.2
      (r1.1, r2.1, r2.2)

/-- A concrete cache holding two entries, one positional-only and one
with both variants, used to exercise Purge. -/
def purgeDemo : Memo :=
  { storage :=
      [("a", { key := "a", stmt := some 0, namedStmt := none, query := "A" }),
       ("b", { key := "b", stmt := some 1, namedStmt := some 2, query := "B" })],
    cap := 4, counter := 2, nextId := 3, closes := [], logs := [] }

theorem closeLogged_storage (cf : Nat → Bool) (i : Nat) (st : Memo) :
    (closeLogged cf i st).storage = st.storage := by
  unfold closeLogged
  split <;> rfl

theorem closeLogged_cap (cf : Nat → Bool) (i : Nat) (st : Memo) :
    (closeLogged cf i st).cap = st.cap := by
  unfold closeLogged
  split <;> rfl

theorem closeLogged_closes (cf : Nat → Bool) (i : Nat) (st : Memo) :
    (closeLogged cf i st).closes = st.closes ++ [i] := by
  unfold closeLogged
  split <;> rfl

theorem closeLogged_logs (cf : Nat → Bool) (i : Nat) (st : Memo) :
    (closeLogged cf i st).logs = st.logs ++ (if cf i then [i] else []) := by
  unfold closeLogged
  split <;> simp_all

theorem closeOptLogged_storage (cf : Nat → Bool) (o : Option Nat) (st : Memo) :
    (closeOptLogged cf o st).storage = st.storage := by
  cases o <;> simp [closeOptLogged, closeLogged_storage]

theorem closeOptLogged_cap (cf : Nat → Bool) (o : Option Nat) (st : Memo) :
    (closeOptLogged cf o st).cap = st.cap := by
  cases o <;> simp [closeOptLogged, closeLogged_cap]

theorem closeOptLogged_closes (cf : Nat → Bool) (o : Option Nat) (st : Memo) :
    (closeOptLogged cf o st).closes = st.closes ++ o.toList := by
  cases o <;> simp [closeOptLogged, closeLogged_closes]

theorem closeOptLogged_logs (cf : Nat → Bool) (o : Option Nat) (st : Memo) :
    (closeOptLogged cf o st).logs = st.logs ++ o.toList.filter cf := by
  cases o with
  | none => simp [closeOptLogged]
  | some i =>
      simp only [closeOptLogged, closeLogged_logs, Option.toList_some]
      split <;> simp_all [List.filter]

theorem evict_storage (cf : Nat → Bool) (v : Statement) (st : Memo) :
    (stmtEvictionStrategy cf v st).storage = st.storage := by
  simp [stmtEvictionStrategy, closeOptLogged_storage]

theorem evict_cap (cf : Nat → Bool) (v : Statement) (st : Memo) :
    (stmtEvictionStrategy cf v st).cap = st.cap := by
  simp [stmtEvictionStrategy, closeOptLogged_cap]

theorem evict_closes (cf : Nat → Bool) (v : Statement) (st : Memo) :
    (stmtEvictionStrategy cf v st).closes =
      st.closes ++ (v.stmt.toList ++ v.namedStmt.toList) := by
  simp [stmtEvictionStrategy, closeOptLogged_closes, closeOptLogged_storage]

theorem evict_logs (cf : Nat → Bool) (v : Statement) (st : Memo) :
    (stmtEvictionStrategy cf v st).logs =
      st.logs ++ (v.stmt.toList ++ v.namedStmt.toList).filter cf := by
  simp [stmtEvictionStrategy, closeOptLogged_logs, closeOptLogged_storage]

theorem lruGet_cap (st : Memo) (key : String) : (lruGet st key).2.cap = st.cap := by
  unfold lruGet
  split <;> rfl

theorem lruGet_length (st : Memo) (key : String) :
    (lruGet st key).2.storage.length = st.storage.length := by
  unfold lruGet
  cases h : st.storage.find? (fun p => p.1 == key) with
  | none => rfl
  | some kv =>
      have he := @List.length_eraseP_add_one _ (fun p => p.1 == key) st.storage kv
        (List.mem_of_find?_eq_some h) (@List.find?_some _ (fun p => p.1 == key) kv st.storage h)
      simp only [List.length_cons]
      omega

theorem lruAdd_cap (cf : Nat → Bool) (st : Memo) (key : String) (v : Statement) :
    (lruAdd cf st key v).cap = st.cap := by
  unfold lruAdd
  cases h : st.storage.find? (fun p => p.1 == key) with
  | some kv => rfl
  | none =>
      dsimp only
      split
      · split <;> simp [evict_cap]
      · rfl

theorem lruAdd_length_le (cf : Nat → Bool) (st : Memo) (key : String) (v : Statement)
    (h : st.storage.length ≤ st.cap) :
    (lruAdd cf st key v).storage.length ≤ st.cap := by
  unfold lruAdd
  cases hf : st.storage.find? (fun p => p.1 == key) with
  | some kv =>
      have he := @List.length_eraseP_add_one _ (fun p => p.1 == key) st.storage kv
        (List.mem_of_find?_eq_some hf) (@List.find?_some _ (fun p => p.1 == key) kv st.storage hf)
      simp only [List.length_cons]
      omega
  | none =>
      dsimp only
      split
      · cases hl : ((key, v) :: st.storage).getLast? with
        | none =>
            rw [List.getLast?_eq_none_iff] at hl
            simp at hl
        | some kv2 =>
            simp only [evict_storage, List.length_dropLast, List.length_cons]
            omega
      · simp only [List.length_cons] at *
        omega

theorem getCachedStmt_cap (hash : String → String) (cf : Nat → Bool) (q : String) (st : Memo) :
    (getCachedStmt hash cf q st).2.cap = st.cap := by
  have hx := lruGet_cap st (hash q)
  rcases hg : lruGet st (hash q) with ⟨o, st1⟩
  rw [hg] at hx
  dsimp only at hx
  cases o with
  | none => simp [getCachedStmt, hg, hx]
  | some existing =>
      simp only [getCachedStmt, hg]
      split
      · simpa using hx
      · split
        · simpa using hx
        · split <;> simpa using hx

theorem getCachedStmt_length (hash : String → String) (cf : Nat → Bool) (q : String) (st : Memo) :
    (getCachedStmt hash cf q st).2.storage.length = st.storage.length := by
  have hx := lruGet_length st (hash q)
  rcases hg : lruGet st (hash q) with ⟨o, st1⟩
  rw [hg] at hx
  dsimp only at hx
  cases o with
  | none => simp [getCachedStmt, hg, hx]
  | some existing =>
      simp only [getCachedStmt, hg]
      split
      · simpa using hx
      · split
        · simpa using hx
        · split <;> simpa using hx

theorem prepare_new (hash : String → String) (cf : Nat → Bool) (Q : String) (cap : Nat)
    (hcap : 1 ≤ cap) :
    Prepare hash cf Q none (New cap) =
      (PrepOut.ok { key := hash Q, stmt := some 0, namedStmt := none, query := Q },
       { storage := [(hash Q, { key := hash Q, stmt := some 0, namedStmt := none, query := Q })],
         cap := cap, counter := 1, nextId := 1, closes := [], logs := [] }) := by
  have hlt : ¬ cap < 1 := by omega
  simp [Prepare, getCachedStmt, lruGet, New, prepareCreate, lruAdd, hlt]

theorem prepareNamed_new (hash : String → String) (cf : Nat → Bool) (Q : String) (cap : Nat)
    (hcap : 1 ≤ cap) :
    PrepareNamed hash cf Q none (New cap) =
      (PrepOut.ok { key := hash Q, stmt := some 0, namedStmt := some 0, query := Q },
       { storage := [(hash Q, { key := hash Q, stmt := some 0, namedStmt := some 0, query := Q })],
         cap := cap, counter := 1, nextId := 1, closes := [], logs := [] }) := by
  have hlt : ¬ cap < 1 := by omega
  simp [PrepareNamed, getCachedStmt, lruGet, New, prepareNamedCreate, lruAdd, hlt]

theorem prepare_hit (hash : String → String) (cf : Nat → Bool) (Q : String) (d : Option Nat)
    (s : Statement) (rest : List (String × Statement)) (st : Memo)
    (hst : st.storage = (hash Q, s) :: rest) (hq : s.query = Q) :
    Prepare hash cf Q d st = (PrepOut.ok s, st) := by
  have hfold : eqFold s.query Q = true := by simp [eqFold, hq]
  simp only [Prepare, getCachedStmt, lruGet, hst]
  simp [hfold]
  rw [← hst]

theorem prepareNamed_hit (hash : String → String) (cf : Nat → Bool) (Q : String) (d : Option Nat)
    (s : Statement) (rest : List (String × Statement)) (st : Memo)
    (hst : st.storage = (hash Q, s) :: rest) (hq : s.query = Q) :
    PrepareNamed hash cf Q d st = (PrepOut.ok s, st) := by
  have hfold : eqFold s.query Q = true := by simp [eqFold, hq]
  simp only [PrepareNamed, getCachedStmt, lruGet, hst]
  simp [hfold]
  rw [← hst]

theorem prepareCreate_cap (cf : Nat → Bool) (q : String) (d : Option Nat)
    (cached : Statement) (st : Memo) :
    (prepareCreate cf q d cached st).2.cap = st.cap := by
  cases d <;> simp [prepareCreate, lruAdd_cap]

theorem prepareNamedCreate_cap (cf : Nat → Bool) (q : String) (d : Option Nat)
    (cached : Statement) (st : Memo) :
    (prepareNamedCreate cf q d cached st).2.cap = st.cap := by
  cases d <;> simp [prepareNamedCreate, lruAdd_cap]

theorem prepareCreate_length_le (cf : Nat → Bool) (q : String) (d : Option Nat)
    (cached : Statement) (st : Memo) (h : st.storage.length ≤ st.cap) :
    (prepareCreate cf q d cached st).2.storage.length ≤ st.cap := by
  cases d with
  | some e => simpa [prepareCreate] using h
  | none =>
      have hx := lruAdd_length_le cf { st with nextId := st.nextId + 1 } cached.key
        { key := cached.key, stmt := some st.nextId, namedStmt := none, query := q } h
      simpa [prepareCreate] using hx

theorem prepareNamedCreate_length_le (cf : Nat → Bool) (q : String) (d : Option Nat)
    (cached : Statement) (st : Memo) (h : st.storage.length ≤ st.cap) :
    (prepareNamedCreate cf q d cached st).2.storage.length ≤ st.cap := by
  cases d with
  | some e => simpa [prepareNamedCreate] using h
  | none =>
      have hx := lruAdd_length_le cf { st with nextId := st.nextId + 1 } cached.key
        { key := cached.key, stmt := some st.nextId, namedStmt := some st.nextId, query := q } h
      simpa [prepareNamedCreate] using hx

theorem prepare_cap (hash : String → String) (cf : Nat → Bool) (q : String)
    (d : Option Nat) (st : Memo) :
    (Prepare hash cf q d st).2.cap = st.cap := by
  have h1 := getCachedStmt_cap hash cf q st
  rcases hg : getCachedStmt hash cf q st with ⟨o, st1⟩
  rw [hg] at h1
  dsimp only at h1
  cases o with
  | panicked => simp [Prepare, hg, h1]
  | ret cached e =>
      cases e with
      | none => simp [Prepare, hg, h1]
      | some ge => simp [Prepare, hg, prepareCreate_cap, h1]

theorem prepareNamed_cap (hash : String → String) (cf : Nat → Bool) (q : String)
    (d : Option Nat) (st : Memo) :
    (PrepareNamed hash cf q d st).2.cap = st.cap := by
  have h1 := getCachedStmt_cap hash cf q st
  rcases hg : getCachedStmt hash cf q st with ⟨o, st1⟩
  rw [hg] at h1
  dsimp only at h1
  cases o with
  | panicked => simp [PrepareNamed, hg, h1]
  | ret cached e =>
      cases e with
      | none => simp [PrepareNamed, hg, h1]
      | some ge => simp [PrepareNamed, hg, prepareNamedCreate_cap, h1]

theorem prepare_length_le (hash : String → String) (cf : Nat → Bool) (q : String)
    (d : Option Nat) (st : Memo) (h : st.storage.length ≤ st.cap) :
    (Prepare hash cf q d st).2.storage.length ≤ st.cap := by
  have h1 := getCachedStmt_cap hash cf q st
  have h2 := getCachedStmt_length hash cf q st
  rcases hg : getCachedStmt hash cf q st with ⟨o, st1⟩
  rw [hg] at h1 h2
  dsimp only at h1 h2
  have hinv : st1.storage.length ≤ st1.cap := by omega
  cases o with
  | panicked => simp [Prepare, hg]; omega
  | ret cached e =>
      cases e with
      | none => simp [Prepare, hg]; omega
      | some ge =>
          have hx := prepareCreate_length_le cf q d cached st1 hinv
          simp [Prepare, hg]
          omega

theorem prepareNamed_length_le (hash : String → String) (cf : Nat → Bool) (q : String)
    (d : Option Nat) (st : Memo) (h : st.storage.length ≤ st.cap) :
    (PrepareNamed hash cf q d st).2.storage.length ≤ st.cap := by
  have h1 := getCachedStmt_cap hash cf q st
  have h2 := getCachedStmt_length hash cf q st
  rcases hg : getCachedStmt hash cf q st with ⟨o, st1⟩
  rw [hg] at h1 h2
  dsimp only at h1 h2
  have hinv : st1.storage.length ≤ st1.cap := by omega
  cases o with
  | panicked => simp [PrepareNamed, hg]; omega
  | ret cached e =>
      cases e with
      | none => simp [PrepareNamed, hg]; omega
      | some ge =>
          have hx := prepareNamedCreate_length_le cf q d cached st1 hinv
          simp [PrepareNamed, hg]
          omega

theorem purgeFold_storage (cf : Nat → Bool) (l : List (String × Statement)) (st : Memo) :
    (l.foldl (fun acc p => stmtEvictionStrategy cf p.2 acc) st).storage = st.storage := by
  induction l generalizing st with
  | nil => rfl
  | cons p l ih => simp [List.foldl_cons, ih, evict_storage]

theorem purgeFold_cap (cf : Nat → Bool) (l : List (String × Statement)) (st : Memo) :
    (l.foldl (fun acc p => stmtEvictionStrategy cf p.2 acc) st).cap = st.cap := by
  induction l generalizing st with
  | nil => rfl
  | cons p l ih => simp [List.foldl_cons, ih, evict_cap]

theorem purge_cap (cf : Nat → Bool) (st : Memo) : (Purge cf st).cap = st.cap := by
  simp [Purge, lruPurge, purgeFold_cap]

theorem purge_storage (cf : Nat → Bool) (st : Memo) : (Purge cf st).storage = [] := rfl

theorem runOp_cap (hash : String → String) (cf : Nat → Bool) (st : Memo) (op : Op) :
    (runOp hash cf st op).cap = st.cap := by
  cases op <;> simp [runOp, prepare_cap, prepareNamed_cap, purge_cap]

theorem runOp_length_le (hash : String → String) (cf : Nat → Bool) (st : Memo) (op : Op)
    (h : st.storage.length ≤ st.cap) :
    (runOp hash cf st op).storage.length ≤ st.cap := by
  cases op with
  | prep q d => simpa [runOp] using prepare_length_le hash cf q d st h
  | prepNamed q d => simpa [runOp] using prepareNamed_length_le hash cf q d st h
  | purge => simp [runOp, purge_storage]

theorem run_cons (hash : String → String) (cf : Nat → Bool) (op : Op) (ops : List Op)
    (st : Memo) :
    run hash cf (op :: ops) st = run hash cf ops (runOp hash cf st op) := rfl

theorem run_cap (hash : String → String) (cf : Nat → Bool) (ops : List Op) (st : Memo) :
    (run hash cf ops st).cap = st.cap := by
  induction ops generalizing st with
  | nil => rfl
  | cons op ops ih => rw [run_cons, ih, runOp_cap]

theorem run_length_le (hash : String → String) (cf : Nat → Bool) (ops : List Op) (st : Memo)
    (h : st.storage.length ≤ st.cap) :
    (run hash cf ops st).storage.length ≤ st.cap := by
  induction ops generalizing st with
  | nil => simpa using h
  | cons op ops ih =>
      rw [run_cons]
      have hx : (runOp hash cf st op).storage.length ≤ (runOp hash cf st op).cap := by
        rw [runOp_cap]
        exact runOp_length_le hash cf st op h
      have := ih (runOp hash cf st op) hx
      rw [runOp_cap] at this
      exact this

theorem lruAdd_overflow (cf : Nat → Bool) (key : String) (v : Statement) (st : Memo)
    (kv : String × Statement)
    (hfind : st.storage.find? (fun p => p.1 == key) = none)
    (hfull : st.cap < st.storage.length + 1)
    (hlast : ((key, v) :: st.storage).getLast? = some kv) :
    (lruAdd cf st key v).storage = ((key, v) :: st.storage).dropLast ∧
    (lruAdd cf st key v).closes = st.closes ++ (kv.2.stmt.toList ++ kv.2.namedStmt.toList) := by
  simp only [lruAdd, hfind]
  rw [if_pos (by simpa using hfull)]
  rw [show ({ st with storage := (key, v) :: st.storage } : Memo).storage.getLast? =
    ((key, v) :: st.storage).getLast? from rfl, hlast]
  constructor
  · simp [evict_storage]
  · simp [evict_closes]

theorem purgeFold_closes (cf : Nat → Bool) (l : List (String × Statement)) (st : Memo) :
    (l.foldl (fun acc p => stmtEvictionStrategy cf p.2 acc) st).closes =
      st.closes ++ l.foldr (fun p acc => p.2.stmt.toList ++ p.2.namedStmt.toList ++ acc) [] := by
  induction l generalizing st with
  | nil => simp
  | cons p l ih => simp [List.foldl_cons, ih, evict_closes, List.append_assoc]

theorem purgeFold_logs (cf : Nat → Bool) (l : List (String × Statement)) (st : Memo) :
    (l.foldl (fun acc p => stmtEvictionStrategy cf p.2 acc) st).logs =
      st.logs ++
        (l.foldr (fun p acc => p.2.stmt.toList ++ p.2.namedStmt.toList ++ acc) []).filter cf := by
  induction l generalizing st with
  | nil => simp
  | cons p l ih => simp [List.foldl_cons, ih, evict_logs, List.filter_append, List.append_assoc]

theorem purge_closes (cf : Nat → Bool) (st : Memo) :
    (Purge cf st).closes = st.closes ++ heldIds st := by
  simp [Purge, lruPurge, purgeFold_closes, heldIds]

theorem purge_logs (cf : Nat → Bool) (st : Memo) :
    (Purge cf st).logs = st.logs ++ (heldIds st).filter cf := by
  simp [Purge, lruPurge, purgeFold_logs, heldIds]

theorem purge_empty (cf : Nat → Bool) (st : Memo) (h : st.storage = []) :
    Purge cf st = st := by
  cases st with
  | mk storage cap counter nextId closes logs =>
      dsimp only at h
      subst h
      rfl

/-- C3: for a cache constructed with any capacity and any sequence of
Prepare / PrepareNamed / Purge calls, the number of cached entries never
exceeds the capacity (which the operations preserve); and in the
capacity-2 scenario, preparing A, B, C in order evicts A — leaving
entries C, B in recency order with exactly A's handle closed,
synchronously inside the third call — and re-preparing A creates a new
handle and evicts exactly B. -/
theorem C3_capacity_invariant_and_lru_scenario :
    (∀ (hash : String → String) (cf : Nat → Bool) (ops : List Op) (st : Memo),
        st.storage.length ≤ st.cap →
        (run hash cf ops st).storage.length ≤ (run hash cf ops st).cap ∧
        (run hash cf ops st).cap = st.cap) ∧
    ((run idHash noFail [Op.prep "A" none, Op.prep "B" none, Op.prep "C" none]
        (New 2)).storage.map (fun p => p.2.query) = ["C", "B"] ∧
     (run idHash noFail [Op.prep "A" none, Op.prep "B" none, Op.prep "C" none]
        (New 2)).closes = [0] ∧
     (run idHash noFail [Op.prep "A" none, Op.prep "B" none, Op.prep "C" none,
        Op.prep "A" none] (New 2)).storage.map (fun p => p.2.query) = ["A", "C"] ∧
     (run idHash noFail [Op.prep "A" none, Op.prep "B" none, Op.prep "C" none,
        Op.prep "A" none] (New 2)).closes = [0, 1]) ∧
    (∀ (cf : Nat → Bool) (key : String) (v : Statement) (st : Memo)
        (kv : String × Statement),
        st.storage.find? (fun p => p.1 == key) = none →
        st.cap < st.storage.length + 1 →
        ((key, v) :: st.storage).getLast? = some kv →
        (lruAdd cf st key v).storage = ((key, v) :: st.storage).dropLast ∧
        (lruAdd cf st key v).closes =
          st.closes ++ (kv.2.stmt.toList ++ kv.2.namedStmt.toList)) := by
  refine ⟨?_, ⟨by decide, by decide, by decide, by decide⟩, ?_⟩
  · intro hash cf ops st h
    refine ⟨?_, run_cap hash cf ops st⟩
    rw [run_cap]
    exact run_length_le hash cf ops st h
  · intro cf key v st kv hfind hfull hlast
    exact lruAdd_overflow cf key v st kv hfind hfull hlast

/-- C3 witness: the invariant half of the theorem applied to a concrete
run with a concrete starting state. -/
theorem C3_capacity_witness :
    (run idHash noFail [Op.prep "X" none, Op.prepNamed "Y" none, Op.purge]
      (New 1)).storage.length ≤
      (run idHash noFail [Op.prep "X" none, Op.prepNamed "Y" none, Op.purge] (New 1)).cap :=
  (C3_capacity_invariant_and_lru_scenario.1 idHash noFail
    [Op.prep "X" none, Op.prepNamed "Y" none, Op.purge] (New 1) (by decide)).1

/-- C4: starting from an empty cache of positive capacity, the first
Prepare of a query creates its statement (the creation counter and the
db allocator both reach exactly 1), its stored query text is the
incoming text, and repeating the very same Prepare any number of times
is a fixed point: each later call returns the very same statement value
with the state — counter included — unchanged. -/
theorem C4_repeat_prepare_single_creation (hash : String → String) (cf : Nat → Bool)
    (Q : String) (cap : Nat) (hcap : 1 ≤ cap) :
    ∃ s : Statement,
      (Prepare hash cf Q none (New cap)).1 = PrepOut.ok s ∧
      (Prepare hash cf Q none (New cap)).2.counter = 1 ∧
      (Prepare hash cf Q none (New cap)).2.nextId = 1 ∧
      s.query = Q ∧
      Prepare hash cf Q none ((Prepare hash cf Q none (New cap)).2) =
        (PrepOut.ok s, (Prepare hash cf Q none (New cap)).2) ∧
      (∀ n : Nat,
        (fun t => (Prepare hash cf Q none t).2)^[n] ((Prepare hash cf Q none (New cap)).2) =
          (Prepare hash cf Q none (New cap)).2) := by
  have hn := prepare_new hash cf Q cap hcap
  refine ⟨{ key := hash Q, stmt := some 0, namedStmt := none, query := Q },
    by rw [hn], by rw [hn], by rw [hn], rfl, ?_, ?_⟩
  · have hfix := prepare_hit hash cf Q none
      { key := hash Q, stmt := some 0, namedStmt := none, query := Q } []
      ((Prepare hash cf Q none (New cap)).2) (by rw [hn]) rfl
    rw [hfix]
  · intro n
    refine Function.iterate_fixed ?_ n
    have hfix := prepare_hit hash cf Q none
      { key := hash Q, stmt := some 0, namedStmt := none, query := Q } []
      ((Prepare hash cf Q none (New cap)).2) (by rw [hn]) rfl
    rw [hfix]

/-- C4 witness: the theorem at a concrete query and capacity. -/
theorem C4_repeat_prepare_witness :
    ∃ s : Statement,
      (Prepare idHash noFail "SELECT 1" none (New 2)).1 = PrepOut.ok s ∧
      (Prepare idHash noFail "SELECT 1" none (New 2)).2.counter = 1 ∧
      (Prepare idHash noFail "SELECT 1" none (New 2)).2.nextId = 1 ∧
      s.query = "SELECT 1" ∧
      Prepare idHash noFail "SELECT 1" none ((Prepare idHash noFail "SELECT 1" none (New 2)).2) =
        (PrepOut.ok s, (Prepare idHash noFail "SELECT 1" none (New 2)).2) ∧
      (∀ n : Nat,
        (fun t => (Prepare idHash noFail "SELECT 1" none t).2)^[n]
            ((Prepare idHash noFail "SELECT 1" none (New 2)).2) =
          (Prepare idHash noFail "SELECT 1" none (New 2)).2) :=
  C4_repeat_prepare_single_creation idHash noFail "SELECT 1" 2 (by decide)

/-- C7: Purge empties the cache and is idempotent (a second Purge is a
no-op on the state, so it performs no closes and produces no new log
entries), every underlying handle held by a cached entry is closed by
Purge, and every close failure among them — not just the first — is
reported in the log. -/
theorem C7_purge_closes_all_and_idempotent (cf : Nat → Bool) (st : Memo) :
    (Purge cf st).storage = [] ∧
    Purge cf (Purge cf st) = Purge cf st ∧
    (∀ i, i ∈ heldIds st → i ∈ (Purge cf st).closes) ∧
    (∀ i, i ∈ heldIds st → cf i = true → i ∈ (Purge cf st).logs) := by
  refine ⟨purge_storage cf st, purge_empty cf _ (purge_storage cf st), ?_, ?_⟩
  · intro i hi
    rw [purge_closes]
    exact List.mem_append.2 (Or.inr hi)
  · intro i hi hcf
    rw [purge_logs]
    exact List.mem_append.2 (Or.inr (List.mem_filter.2 ⟨hi, hcf⟩))

/-- C7 witness: purging a cache with a positional-only entry and a
both-variant entry, with every close failing, closes ids 0, 1, 2 and
logs all three failures. -/
theorem C7_purge_witness :
    (Purge allFail purgeDemo).storage = [] ∧
    Purge allFail (Purge allFail purgeDemo) = Purge allFail purgeDemo ∧
    (0 ∈ (Purge allFail purgeDemo).closes ∧ 1 ∈ (Purge allFail purgeDemo).closes ∧
      2 ∈ (Purge allFail purgeDemo).closes) ∧
    (0 ∈ (Purge allFail purgeDemo).logs ∧ 1 ∈ (Purge allFail purgeDemo).logs ∧
      2 ∈ (Purge allFail purgeDemo).logs) :=
  ⟨(C7_purge_closes_all_and_idempotent allFail purgeDemo).1,
   (C7_purge_closes_all_and_idempotent allFail purgeDemo).2.1,
   ⟨(C7_purge_closes_all_and_idempotent allFail purgeDemo).2.2.1 0 (by decide),
    (C7_purge_closes_all_and_idempotent allFail purgeDemo).2.2.1 1 (by decide),
    (C7_purge_closes_all_and_idempotent allFail purgeDemo).2.2.1 2 (by decide)⟩,
   ⟨(C7_purge_closes_all_and_idempotent allFail purgeDemo).2.2.2 0 (by decide) (by decide),
    (C7_purge_closes_all_and_idempotent allFail purgeDemo).2.2.2 1 (by decide) (by decide),
    (C7_purge_closes_all_and_idempotent allFail purgeDemo).2.2.2 2 (by decide) (by decide)⟩⟩

/-- C8: the Provider replaces an absent-or-zero capacity with the
documented default 256, the resulting capacity is always positive, and
a positive supplied capacity is used as given. -/
theorem C8_provider_default_capacity (size : Nat) :
    (providerNew 0).cap = 256 ∧
    0 < (providerNew size).cap ∧
    (0 < size → (providerNew size).cap = size) := by
  refine ⟨rfl, ?_, ?_⟩
  · simp only [providerNew, New]
    split <;> omega
  · intro h
    simp only [providerNew, New]
    rw [if_neg (by omega)]

/-- C8 witness: a positive supplied capacity is used as given. -/
theorem C8_provider_witness : (providerNew 7).cap = 7 :=
  (C8_provider_default_capacity 7).2.2 (by decide)

/-- C1: evaluation of the code at the failing input.  Under a forced
fingerprint collision (constant hash), with the cached entry built by
PrepareNamed for query B, a Prepare of the colliding query A whose
creation then fails shows the collision path does not behave as the
claim states: only one Close event is issued (the named wrapper; its
underlying handle id 0), the superseded entry is NOT removed — it is
still cached with query B — and a subsequent Prepare of B is served this
stale entry, whose named handle was already closed, instead of
re-creating a statement. -/
theorem C1_collision_keeps_superseded_entry :
    (PrepareNamed collHash noFail "B" none (New 2)).2.storage.map (fun p => p.2.query) =
      ["B"] ∧
    (Prepare collHash noFail "A" (some 7) (PrepareNamed collHash noFail "B" none (New 2)).2).1 =
      PrepOut.err (GoErr.dbErr 7) { key := "K", stmt := none, namedStmt := none, query := "" } ∧
    (Prepare collHash noFail "A" (some 7)
        (PrepareNamed collHash noFail "B" none (New 2)).2).2.storage.map (fun p => p.2.query) =
      ["B"] ∧
    (Prepare collHash noFail "A" (some 7)
        (PrepareNamed collHash noFail "B" none (New 2)).2).2.closes = [0] ∧
    (Prepare collHash noFail "B" none
        (Prepare collHash noFail "A" (some 7)
          (PrepareNamed collHash noFail "B" none (New 2)).2).2).1 =
      PrepOut.ok { key := "K", stmt := some 0, namedStmt := some 0, query := "B" } := by
  decide

/-- C2: evaluation of the code at the failing input.  After a positional
Prepare of a query, PrepareNamed of the very same text is a plain hit:
it returns the cached positional-only statement (named handle nil),
creates nothing (state unchanged, counter still 1), and the single cache
entry still holds no named handle — the missing variant is not created. -/
theorem C2_preparenamed_after_prepare_creates_no_named_handle :
    PrepareNamed idHash noFail "SELECT 1" none
        ((Prepare idHash noFail "SELECT 1" none (New 2)).2) =
      (PrepOut.ok { key := "SELECT 1", stmt := some 0, namedStmt := none, query := "SELECT 1" },
       (Prepare idHash noFail "SELECT 1" none (New 2)).2) ∧
    (PrepareNamed idHash noFail "SELECT 1" none
        ((Prepare idHash noFail "SELECT 1" none (New 2)).2)).2.storage.map
      (fun p => p.2.namedStmt) = [none] ∧
    (PrepareNamed idHash noFail "SELECT 1" none
        ((Prepare idHash noFail "SELECT 1" none (New 2)).2)).2.counter = 1 := by
  decide

/-- C5: evaluation of the code at the failing input.  A fingerprint
collision against an entry that holds only a positional handle (created
by Prepare) dereferences the nil named-statement pointer in Close and
panics, although this is an expected condition per the claim. -/
theorem C5_collision_with_positional_only_entry_panics :
    (Prepare collHash noFail "Y" none (Prepare collHash noFail "X" none (New 2)).2).1 =
      PrepOut.panicked := by
  decide

/-- C6 counterexample: a Prepare whose db preparation fails can still
mutate the world when its lookup collided — the cached entry's named
handle (underlying id 0) is closed by that failing call, although the
db error is returned unchanged and the entry itself stays cached. -/
theorem C6_counterexample_collision_failure_closes_cached_handle :
    (Prepare collHash noFail "Q1" (some 3) (PrepareNamed collHash noFail "Q2" none (New 2)).2).1 =
      PrepOut.err (GoErr.dbErr 3) { key := "K", stmt := none, namedStmt := none, query := "" } ∧
    (PrepareNamed collHash noFail "Q2" none (New 2)).2.closes = [] ∧
    (Prepare collHash noFail "Q1" (some 3)
        (PrepareNamed collHash noFail "Q2" none (New 2)).2).2.closes = [0] := by
  decide

/-- C6 (amended): when the fingerprint lookup is a miss — no entry is
stored under the incoming query's fingerprint — a failing preparation
returns the db error unchanged and leaves the entire cache state
(entries, recency, counter, allocator, close log) unmodified, for both
Prepare and PrepareNamed. -/
theorem C6_miss_failure_leaves_cache_unchanged (hash : String → String) (cf : Nat → Bool)
    (Q : String) (e : Nat) (st : Memo)
    (hm : st.storage.find? (fun p => p.1 == hash Q) = none) :
    Prepare hash cf Q (some e) st =
      (PrepOut.err (GoErr.dbErr e)
        { key := hash Q, stmt := none, namedStmt := none, query := "" }, st) ∧
    PrepareNamed hash cf Q (some e) st =
      (PrepOut.err (GoErr.dbErr e)
        { key := hash Q, stmt := none, namedStmt := none, query := "" }, st) := by
  constructor <;>
    simp [Prepare, PrepareNamed, getCachedStmt, lruGet, hm, prepareCreate, prepareNamedCreate]

/-- C6 witness: the amended theorem at a concrete empty cache. -/
theorem C6_miss_failure_witness :
    Prepare idHash noFail "W" (some 5) (New 2) =
      (PrepOut.err (GoErr.dbErr 5)
        { key := "W", stmt := none, namedStmt := none, query := "" }, New 2) ∧
    PrepareNamed idHash noFail "W" (some 5) (New 2) =
      (PrepOut.err (GoErr.dbErr 5)
        { key := "W", stmt := none, namedStmt := none, query := "" }, New 2) :=
  C6_miss_failure_leaves_cache_unchanged idHash noFail "W" 5 (New 2) (by decide)

/-- C9: a PrepareNamed miss stores one entry whose positional slot
aliases the named statement's underlying handle (the same id in both
slots), a subsequent Prepare of the same text is a hit returning that
aliased statement with the state — creation counter and db allocator
included — unchanged, and evicting such an entry issues a Close on both
the positional alias and the named wrapper, i.e. two Close events on
the one underlying handle. -/
theorem C9_preparenamed_aliases_positional (hash : String → String) (cf : Nat → Bool)
    (Q : String) (cap : Nat) (hcap : 1 ≤ cap) :
    ∃ s : Statement,
      (PrepareNamed hash cf Q none (New cap)).1 = PrepOut.ok s ∧
      s.stmt = some 0 ∧ s.namedStmt = some 0 ∧
      (PrepareNamed hash cf Q none (New cap)).2.counter = 1 ∧
      (PrepareNamed hash cf Q none (New cap)).2.nextId = 1 ∧
      Prepare hash cf Q none ((PrepareNamed hash cf Q none (New cap)).2) =
        (PrepOut.ok s, (PrepareNamed hash cf Q none (New cap)).2) ∧
      (∀ st : Memo, (stmtEvictionStrategy cf s st).closes = st.closes ++ [0, 0]) := by
  have hn := prepareNamed_new hash cf Q cap hcap
  refine ⟨{ key := hash Q, stmt := some 0, namedStmt := some 0, query := Q },
    by rw [hn], rfl, rfl, by rw [hn], by rw [hn], ?_, ?_⟩
  · have hfix := prepare_hit hash cf Q none
      { key := hash Q, stmt := some 0, namedStmt := some 0, query := Q } []
      ((PrepareNamed hash cf Q none (New cap)).2) (by rw [hn]) rfl
    rw [hfix]
  · intro st
    rw [evict_closes]
    rfl

/-- C9 witness: the theorem at a concrete query and capacity. -/
theorem C9_preparenamed_aliases_witness :
    ∃ s : Statement,
      (PrepareNamed idHash noFail "SELECT 2" none (New 3)).1 = PrepOut.ok s ∧
      s.stmt = some 0 ∧ s.namedStmt = some 0 ∧
      (PrepareNamed idHash noFail "SELECT 2" none (New 3)).2.counter = 1 ∧
      (PrepareNamed idHash noFail "SELECT 2" none (New 3)).2.nextId = 1 ∧
      Prepare idHash noFail "SELECT 2" none ((PrepareNamed idHash noFail "SELECT 2" none (New 3)).2) =
        (PrepOut.ok s, (PrepareNamed idHash noFail "SELECT 2" none (New 3)).2) ∧
      (∀ st : Memo, (stmtEvictionStrategy noFail s st).closes = st.closes ++ [0, 0]) :=
  C9_preparenamed_aliases_positional idHash noFail "SELECT 2" 3 (by decide)

/-- C10 counterexample: in the legal interleaving where both callers
complete their lookup (both miss) before either creates, two statements
are created and the creation metric is recorded twice — not once as the
claim states — and the first racer's handle (id 0) is neither cached
(the surviving entry holds only id 1) nor closed (no Close event is
ever issued): it is leaked, contradicting the claim that a losing
racer's own prepared handle is closed immediately rather than cached. -/
theorem C10_counterexample_race_double_creation :
    (racePrepare2 idHash noFail "R" (New 2)).1 =
      PrepOut.ok { key := "R", stmt := some 0, namedStmt := none, query := "R" } ∧
    (racePrepare2 idHash noFail "R" (New 2)).2.1 =
      PrepOut.ok { key := "R", stmt := some 1, namedStmt := none, query := "R" } ∧
    (racePrepare2 idHash noFail "R" (New 2)).2.2.counter = 2 ∧
    (racePrepare2 idHash noFail "R" (New 2)).2.2.storage =
      [("R", { key := "R", stmt := some 1, namedStmt := none, query := "R" })] ∧
    (racePrepare2 idHash noFail "R" (New 2)).2.2.closes = [] := by
  decide

/-- C10 (amended): in the both-miss interleaving on a fresh cache, each
racer creates its own statement (the counter and the allocator reach 2),
at most one entry remains cached — the later insert overwrites the
earlier entry in place, the Add issuing no eviction callback — and the
earlier racer's handle is neither cached nor closed (the close log stays
empty): it is leaked, while each caller still holds its own open
handle. -/
theorem C10_race_double_creation_last_insert_wins (hash : String → String) (cf : Nat → Bool)
    (q : String) (cap : Nat) (hcap : 1 ≤ cap) :
    racePrepare2 hash cf q (New cap) =
      (PrepOut.ok { key := hash q, stmt := some 0, namedStmt := none, query := q },
       PrepOut.ok { key := hash q, stmt := some 1, namedStmt := none, query := q },
       { storage := [(hash q, { key := hash q, stmt := some 1, namedStmt := none, query := q })],
         cap := cap, counter := 2, nextId := 2, closes := [], logs := [] }) := by
  have hmiss : getCachedStmt hash cf q (New cap) =
      (GetOut.ret { key := hash q, stmt := none, namedStmt := none, query := "" }
        (some GoErr.cacheMiss), New cap) := by
    simp [getCachedStmt, lruGet, New]
  simp only [racePrepare2, hmiss]
  rw [prepare_new hash cf q cap hcap]
  simp [prepareCreate, lruAdd]

/-- C10 witness: the amended theorem at a concrete query and capacity
(the close-failure environment is irrelevant: no close ever happens). -/
theorem C10_race_witness :
    racePrepare2 idHash allFail "S" (New 3) =
      (PrepOut.ok { key := "S", stmt := some 0, namedStmt := none, query := "S" },
       PrepOut.ok { key := "S", stmt := some 1, namedStmt := none, query := "S" },
       { storage := [("S", { key := "S", stmt := some 1, namedStmt := none, query := "S" })],
         cap := 3, counter := 2, nextId := 2, closes := [], logs := [] }) :=
  C10_race_double_creation_last_insert_wins idHash allFail "S" 3 (by decide)

end Zimemo
